import Mathlib

/-!
Shallow embedding of `src/index.js`, a browser path-guessing game that ends
in a zero-knowledge proof handoff.  The JS numbers the program compares on
the board (`tileSize = 1`, `tileGapZ = 1.5`, `tileOffset = 0.8`, the `0.1`
click tolerance, row z coordinates `-i * 2.5`) are all exact multiples of
0.1, so we model world coordinates as integers scaled by 10 (tenths of a
world unit); every comparison in the source then coincides with the integer
comparison (the float 0.1 lies strictly between 0 and 2.5, the smallest
nonzero coordinate difference, so the tolerance checks agree too).  DOM
events are abstracted to the outcome of the raycast: a click event either
misses every tile (`none`) or hits the tile at a given index of the `tiles`
array (`some ti`).
-/

namespace Zktest

/-- Result of `Math.abs` on our scaled-integer model of JS numbers. -/
def mathAbs (q : Int) : Int := if q < 0 then -q else q

/-! ### Board constants (src/index.js lines 95-103), scaled by 10 -/

def numRows : Nat := 3

def numCols : Nat := 2

/-- `tileSize = 1`, i.e. 10 tenths. -/
def tileSize : Int := 10

/-- `tileGapZ = 1.5`, i.e. 15 tenths. -/
def tileGapZ : Int := 15

/-- `tileOffset = 0.8`, i.e. 8 tenths. -/
def tileOffset : Int := 8

/-- The `0.1` click tolerance of lines 196 and 213, i.e. 1 tenth. -/
def clickTol : Int := 1

/-- `tileOffsets = [-tileOffset, tileOffset]` (line 100): x coordinate per column. -/
def tileOffsets : List Int := [-tileOffset, tileOffset]

/-- z coordinate of row `i`: `const z = -i * (tileSize + tileGapZ)` (line 105). -/
def rowZ (i : Nat) : Int := -(i : Int) * (tileSize + tileGapZ)

/-- `lastZ = -(numRows - 1) * (tileSize + tileGapZ)` (line 212). -/
def lastZ : Int := -((numRows : Int) - 1) * (tileSize + tileGapZ)

/-- One tile mesh: its world position, `userData.colIndex` (line 113) and
`userData.break` (line 120, renamed `isBreak` since `break` is a Lean keyword). -/
structure TileData where
  x : Int
  z : Int
  colIndex : Nat
  isBreak : Bool
deriving DecidableEq

/-- The flattened `tiles` array built by the nested loop of lines 104-123,
given the secret path (one safe column per row).  Row `i` contributes tiles
at indices `numCols * i + j`; `tile.userData.break = (j !== safeIndex)`. -/
def buildTiles (sp : List Nat) : List TileData :=
  (List.range numRows).flatMap (fun i =>
    (List.range numCols).map (fun j =>
      { x := tileOffsets.getD j 0
        z := rowZ i
        colIndex := j
        isBreak := j != sp.getD i 0 }))

/-- A game session: the generated `secretPath` (line 118, safe column index per
row; modelled as `Nat` in place of `BigInt`) and the `publicHash` commitment
computed at startup by the external `poseidon2Hash` call (line 126), carried as
an opaque value. -/
structure Session where
  secretPath : List Nat
  publicHash : Nat
deriving DecidableEq

/-- Mutable interaction state of `src/index.js`:
`canClick` (line 185), `userPath` (line 186), `currentExpectedZ` (line 103),
the list of tiles revealed so far by `revealTile` calls (line 201, in click
order), whether the Game-Over path was taken (lines 203-208: alert plus
pending page reload; no state changes afterwards until the reload), and the
argument triple of the proof pipeline scheduled in the last-tile branch
(lines 229-233: `secret_path`, `user_path`, `public_hash` of `noirInputs`,
as raw values; the source serializes each as a decimal string). -/
structure GameState where
  canClick : Bool
  userPath : List Nat
  currentExpectedZ : Int
  revealed : List Nat
  failed : Bool
  proofCall : Option (List Nat × List Nat × Nat)
deriving DecidableEq

/-- State at page load. -/
def initState : GameState :=
  { canClick := true
    userPath := []
    currentExpectedZ := 0
    revealed := []
    failed := false
    proofCall := none }

/-- The session reached the `Completed` terminal state: the last-tile branch
ran and scheduled proof generation. -/
def completed (s : GameState) : Bool := s.proofCall.isSome

/-- One run of the `window` click handler (lines 187-279) on event `ev`.
`ev = none` models a click whose raycast hits no tile; `ev = some ti` models a
click whose first raycast intersection is `tiles[ti]`.  Mirrors the source
line by line: the `canClick` guard (188), the empty-intersection return (193),
the expected-row tolerance check (196), the push of
`direction = tile.position.x < 0 ? 0 : 1` (197-198), locking (199), reveal
(201), the Game-Over branch (203-208, `canClick` stays false), cursor advance
and unlock (210-211), and the last-tile branch (212-233) recording the values
handed to the proof pipeline. -/
def clickStep (sess : Session) (s : GameState) (ev : Option Nat) : GameState :=
  if s.canClick = false then s else
    match ev with
    | none => s
    | some ti =>
      match (buildTiles sess.secretPath)[ti]? with
      | none => s
      | some tile =>
        if mathAbs (tile.z - s.currentExpectedZ) > clickTol then s
        else
          let direction : Nat := if tile.x < 0 then 0 else 1
          let s1 : GameState :=
            { s with userPath := s.userPath ++ [direction]
                     canClick := false
                     revealed := s.revealed ++ [ti] }
          if tile.isBreak then { s1 with failed := true }
          else
            let s2 : GameState :=
              { s1 with currentExpectedZ := tile.z - (tileSize + tileGapZ)
                        canClick := true }
            if mathAbs (tile.z - lastZ) < clickTol then
              { s2 with proofCall := some (sess.secretPath, s2.userPath, sess.publicHash) }
            else s2

/-- Folding the click handler over a sequence of click events. -/
def runClicks (sess : Session) (s : GameState) (evs : List (Option Nat)) : GameState :=
  evs.foldl (clickStep sess) s

/-- The click events of a perfect run: for each row in front-to-back order,
a click hitting the safe tile of that row (`tiles[numCols * i + sp[i]]`). -/
def safeClickEvents (sp : List Nat) : List (Option Nat) :=
  (List.range numRows).map (fun i => some (numCols * i + sp.getD i 0))

/-- The state after clicking the safe tile of every row in order. -/
def finalState (sess : Session) : GameState :=
  runClicks sess initState (safeClickEvents sess.secretPath)

/-! ### Branch characterizations of the click handler -/

theorem clickStep_of_locked {sess : Session} {s : GameState} (h : s.canClick = false)
    (ev : Option Nat) : clickStep sess s ev = s := by
  simp [clickStep, h]

theorem clickStep_none (sess : Session) {s : GameState} : clickStep sess s none = s := by
  cases hcc : s.canClick <;> simp [clickStep, hcc]

theorem clickStep_miss (sess : Session) {s : GameState} {ti : Nat}
    (hget : (buildTiles sess.secretPath)[ti]? = none) :
    clickStep sess s (some ti) = s := by
  cases hcc : s.canClick <;> simp [clickStep, hcc, hget]

theorem clickStep_wrongRow (sess : Session) {s : GameState} {ti : Nat} {tile : TileData}
    (hget : (buildTiles sess.secretPath)[ti]? = some tile)
    (hrow : mathAbs (tile.z - s.currentExpectedZ) > clickTol) :
    clickStep sess s (some ti) = s := by
  cases hcc : s.canClick <;> simp [clickStep, hcc, hget, hrow]

theorem clickStep_break (sess : Session) {s : GameState} {ti : Nat} {tile : TileData}
    (hcc : s.canClick = true)
    (hget : (buildTiles sess.secretPath)[ti]? = some tile)
    (hrow : ¬ mathAbs (tile.z - s.currentExpectedZ) > clickTol)
    (hbr : tile.isBreak = true) :
    clickStep sess s (some ti) =
      { s with userPath := s.userPath ++ [if tile.x < 0 then 0 else 1]
               canClick := false
               revealed := s.revealed ++ [ti]
               failed := true } := by
  simp [clickStep, hcc, hget, hrow, hbr]

theorem clickStep_safe_mid (sess : Session) {s : GameState} {ti : Nat} {tile : TileData}
    (hcc : s.canClick = true)
    (hget : (buildTiles sess.secretPath)[ti]? = some tile)
    (hrow : ¬ mathAbs (tile.z - s.currentExpectedZ) > clickTol)
    (hbr : tile.isBreak = false)
    (hlast : ¬ mathAbs (tile.z - lastZ) < clickTol) :
    clickStep sess s (some ti) =
      { s with userPath := s.userPath ++ [if tile.x < 0 then 0 else 1]
               canClick := true
               currentExpectedZ := tile.z - (tileSize + tileGapZ)
               revealed := s.revealed ++ [ti] } := by
  simp [clickStep, hcc, hget, hrow, hbr, hlast]

theorem clickStep_safe_last (sess : Session) {s : GameState} {ti : Nat} {tile : TileData}
    (hcc : s.canClick = true)
    (hget : (buildTiles sess.secretPath)[ti]? = some tile)
    (hrow : ¬ mathAbs (tile.z - s.currentExpectedZ) > clickTol)
    (hbr : tile.isBreak = false)
    (hlast : mathAbs (tile.z - lastZ) < clickTol) :
    clickStep sess s (some ti) =
      { s with userPath := s.userPath ++ [if tile.x < 0 then 0 else 1]
               canClick := true
               currentExpectedZ := tile.z - (tileSize + tileGapZ)
               revealed := s.revealed ++ [ti]
               proofCall := some (sess.secretPath,
                 s.userPath ++ [if tile.x < 0 then 0 else 1], sess.publicHash) } := by
  simp [clickStep, hcc, hget, hrow, hbr, hlast]

theorem clickStep_accepted_userPath (sess : Session) {s : GameState} {ti : Nat}
    {tile : TileData}
    (hcc : s.canClick = true)
    (hget : (buildTiles sess.secretPath)[ti]? = some tile)
    (hrow : ¬ mathAbs (tile.z - s.currentExpectedZ) > clickTol) :
    (clickStep sess s (some ti)).userPath =
      s.userPath ++ [if tile.x < 0 then 0 else 1] := by
  cases hbr : tile.isBreak
  · by_cases hlast : mathAbs (tile.z - lastZ) < clickTol
    · rw [clickStep_safe_last sess hcc hget hrow hbr hlast]
    · rw [clickStep_safe_mid sess hcc hget hrow hbr hlast]
  · rw [clickStep_break sess hcc hget hrow hbr]

theorem runClicks_of_locked {sess : Session} {s : GameState} (h : s.canClick = false) :
    ∀ evs : List (Option Nat), runClicks sess s evs = s := by
  intro evs
  induction evs with
  | nil => rfl
  | cons e es ih =>
    show runClicks sess (clickStep sess s e) es = s
    rw [clickStep_of_locked h]
    exact ih

/-! ### Board geometry lemmas -/

theorem mem_buildTiles {sp : List Nat} {t : TileData} (h : t ∈ buildTiles sp) :
    ∃ i j, i < numRows ∧ j < numCols ∧
      t = { x := tileOffsets.getD j 0
            z := rowZ i
            colIndex := j
            isBreak := j != sp.getD i 0 } := by
  simp only [buildTiles, List.mem_flatMap, List.mem_map, List.mem_range] at h
  obtain ⟨i, hi, j, hj, ht⟩ := h
  exact ⟨i, j, hi, hj, ht.symm⟩

theorem rowZ_near_iff {i k : Nat} (hi : i < numRows) (hk : k ≤ numRows) :
    (¬ mathAbs (rowZ i - rowZ k) > clickTol) ↔ i = k := by
  have hi3 : i < 3 := hi
  have hk3 : k ≤ 3 := hk
  interval_cases i <;> interval_cases k <;> decide

theorem rowZ_sub_gap (i : Nat) : rowZ i - (tileSize + tileGapZ) = rowZ (i + 1) := by
  simp only [rowZ]
  push_cast
  ring

/-! ### Reachable-state invariant -/

/-- Invariant holding in every state reachable from page load: the cursor
sits on the z coordinate of some row `k ≤ numRows`; a failed session is
locked; while the session has not failed, `userPath` has exactly one entry
per already-cleared row; and `userPath` never outgrows the board. -/
def stateInv (s : GameState) : Prop :=
  ∃ k, k ≤ numRows ∧ s.currentExpectedZ = rowZ k ∧
    (s.failed = true → s.canClick = false) ∧
    (s.failed = false → s.userPath.length = k) ∧
    s.userPath.length ≤ numRows

theorem stateInv_initState : stateInv initState := ⟨0, by decide⟩

theorem stateInv_clickStep (sess : Session) {s : GameState} (h : stateInv s)
    (ev : Option Nat) : stateInv (clickStep sess s ev) := by
  obtain ⟨k, hk, hz, hfc, hlen, hbound⟩ := h
  cases hcc : s.canClick with
  | false =>
    rw [clickStep_of_locked hcc]
    exact ⟨k, hk, hz, hfc, hlen, hbound⟩
  | true =>
    cases ev with
    | none =>
      rw [clickStep_none]
      exact ⟨k, hk, hz, hfc, hlen, hbound⟩
    | some ti =>
      cases hget : (buildTiles sess.secretPath)[ti]? with
      | none =>
        rw [clickStep_miss sess hget]
        exact ⟨k, hk, hz, hfc, hlen, hbound⟩
      | some tile =>
        by_cases hrow : mathAbs (tile.z - s.currentExpectedZ) > clickTol
        · rw [clickStep_wrongRow sess hget hrow]
          exact ⟨k, hk, hz, hfc, hlen, hbound⟩
        · obtain ⟨i, j, hi, hj, ht⟩ := mem_buildTiles (List.getElem?_mem hget)
          have htz : tile.z = rowZ i := by rw [ht]
          have hik : i = k := by
            refine (rowZ_near_iff hi hk).mp ?_
            rw [← htz, ← hz]
            exact hrow
          have hfail : s.failed = false := by
            cases hf : s.failed
            · rfl
            · rw [hfc hf] at hcc
              exact absurd hcc (by simp)
          have hlk : s.userPath.length = k := hlen hfail
          cases hbr : tile.isBreak
          · by_cases hlast : mathAbs (tile.z - lastZ) < clickTol
            · rw [clickStep_safe_last sess hcc hget hrow hbr hlast]
              refine ⟨i + 1, by omega, ?_, by simp [hfail], ?_, ?_⟩
              · simp only [htz, rowZ_sub_gap]
              · intro
                simp [hlk, hik]
              · simp [hlk]
                omega
            · rw [clickStep_safe_mid sess hcc hget hrow hbr hlast]
              refine ⟨i + 1, by omega, ?_, by simp [hfail], ?_, ?_⟩
              · simp only [htz, rowZ_sub_gap]
              · intro
                simp [hlk, hik]
              · simp [hlk]
                omega
          · rw [clickStep_break sess hcc hget hrow hbr]
            refine ⟨k, hk, hz, by simp, by simp, ?_⟩
            simp [hlk]
            omega

theorem stateInv_runClicks (sess : Session) (evs : List (Option Nat)) :
    stateInv (runClicks sess initState evs) := by
  suffices h : ∀ s : GameState, stateInv s → stateInv (runClicks sess s evs) from
    h initState stateInv_initState
  induction evs with
  | nil => exact fun s hs => hs
  | cons e es ih =>
    intro s hs
    exact ih (clickStep sess s e) (stateInv_clickStep sess hs e)

/-- A session whose secret path is well formed: one safe column index per row,
each drawn from the column range, exactly as the construction of lines 104-123
guarantees. -/
def validSession (sess : Session) : Prop :=
  sess.secretPath.length = numRows ∧ ∀ v ∈ sess.secretPath, v < numCols

set_option maxHeartbeats 2000000 in
/-- Evaluation of the perfect run on each of the eight possible secret paths:
the full user path equals the secret path, the proof pipeline is scheduled
with (secretPath, userPath, publicHash), the session never failed, the click
guard ends re-enabled, and the cursor has advanced past the last row. -/
theorem finalState_fields (sess : Session) (hv : validSession sess) :
    (finalState sess).userPath = sess.secretPath ∧
    (finalState sess).proofCall = some (sess.secretPath, sess.secretPath, sess.publicHash) ∧
    (finalState sess).canClick = true ∧
    (finalState sess).failed = false ∧
    (finalState sess).currentExpectedZ = rowZ numRows := by
  obtain ⟨hlen, hval⟩ := hv
  obtain ⟨sp, ph⟩ := sess
  simp only at hlen hval ⊢
  obtain ⟨a, b, c, rfl⟩ := List.length_eq_three.mp hlen
  have ha : a < 2 := hval a (by simp)
  have hb : b < 2 := hval b (by simp)
  have hc : c < 2 := hval c (by simp)
  interval_cases a <;> interval_cases b <;> interval_cases c <;>
    exact ⟨rfl, rfl, rfl, rfl, rfl⟩

/-! ### Claim theorems about the traversal state machine -/

/-- The concrete session of the end-to-end scenario in section 8 of the spec:
SecretPath = [1, 0, 1]. -/
def wSession : Session := { secretPath := [1, 0, 1], publicHash := 7 }

/-- Claim C1: if the player clicks the designated safe tile for every row in
order (rows front to back), the session reaches the Completed state, the
accumulated UserPath is elementwise identical to SecretPath (list equality),
and proof generation is invoked with exactly SecretPath, UserPath, and the
precomputed Commitment as its three inputs. -/
theorem safe_run_reaches_completed (sess : Session) (hv : validSession sess) :
    completed (finalState sess) = true ∧
    (finalState sess).failed = false ∧
    (finalState sess).userPath = sess.secretPath ∧
    (finalState sess).proofCall =
      some (sess.secretPath, (finalState sess).userPath, sess.publicHash) := by
  obtain ⟨hup, hpc, -, hfail, -⟩ := finalState_fields sess hv
  refine ⟨?_, hfail, hup, ?_⟩
  · simp [completed, hpc]
  · rw [hup]
    exact hpc

/-- Witness for C1 at the spec scenario SecretPath = [1, 0, 1]. -/
theorem safe_run_reaches_completed_witness :
    completed (finalState wSession) = true ∧
    (finalState wSession).failed = false ∧
    (finalState wSession).userPath = wSession.secretPath ∧
    (finalState wSession).proofCall =
      some (wSession.secretPath, (finalState wSession).userPath, wSession.publicHash) :=
  safe_run_reaches_completed wSession ⟨rfl, by decide⟩

/-- Claim C2: clicking a break tile at the expected row (with the guard open)
transitions the session immediately to the terminal Failed state, and after
that no further tile input is accepted: every subsequent sequence of clicks
leaves the whole state — UserPath, cursor, tile reveals — unchanged. -/
theorem break_click_fails_and_locks (sess : Session) (s : GameState) (ti : Nat)
    (tile : TileData)
    (hcc : s.canClick = true)
    (hget : (buildTiles sess.secretPath)[ti]? = some tile)
    (hrow : ¬ mathAbs (tile.z - s.currentExpectedZ) > clickTol)
    (hbr : tile.isBreak = true) :
    (clickStep sess s (some ti)).failed = true ∧
    (clickStep sess s (some ti)).canClick = false ∧
    ∀ evs : List (Option Nat),
      runClicks sess (clickStep sess s (some ti)) evs = clickStep sess s (some ti) := by
  have hstep := clickStep_break sess hcc hget hrow hbr
  refine ⟨by rw [hstep], by rw [hstep], fun evs => runClicks_of_locked (by rw [hstep]) evs⟩

/-- Witness for C2: with SecretPath = [1, 0, 1], clicking tile 0 (row 0,
column 0) is a losing move; two subsequent clicks change nothing. -/
theorem break_click_fails_and_locks_witness :
    (clickStep wSession initState (some 0)).failed = true ∧
    (clickStep wSession initState (some 0)).canClick = false ∧
    runClicks wSession (clickStep wSession initState (some 0)) [some 2, none] =
      clickStep wSession initState (some 0) := by
  obtain ⟨h1, h2, h3⟩ := break_click_fails_and_locks wSession initState 0
    { x := -8, z := 0, colIndex := 0, isBreak := true } rfl (by decide) (by decide) rfl
  exact ⟨h1, h2, h3 [some 2, none]⟩

/-- Claim C3: in every state reachable from page load, a click that lands
outside any tile, or on a tile whose row does not equal the current expected
row, leaves all session state unchanged. -/
theorem out_of_order_click_ignored (sess : Session) (evs : List (Option Nat))
    (ev : Option Nat)
    (h : ev = none ∨ ∃ ti tile, ev = some ti ∧
          (buildTiles sess.secretPath)[ti]? = some tile ∧
          tile.z ≠ (runClicks sess initState evs).currentExpectedZ) :
    clickStep sess (runClicks sess initState evs) ev = runClicks sess initState evs := by
  obtain ⟨k, hk, hz, -, -, -⟩ := stateInv_runClicks sess evs
  rcases h with rfl | ⟨ti, tile, rfl, hget, hne⟩
  · exact clickStep_none sess
  · obtain ⟨i, j, hi, hj, ht⟩ := mem_buildTiles (List.getElem?_mem hget)
    have htz : tile.z = rowZ i := by rw [ht]
    apply clickStep_wrongRow sess hget
    by_contra hrow
    have hik : i = k := (rowZ_near_iff hi hk).mp (by rw [← htz, ← hz]; exact hrow)
    exact hne (by rw [htz, hik, hz])

/-- Witness for C3: at page load (expected row 0), a click on tile 2, which
sits on row 1, changes nothing. -/
theorem out_of_order_click_ignored_witness :
    clickStep wSession (runClicks wSession initState []) (some 2) =
      runClicks wSession initState [] :=
  out_of_order_click_ignored wSession [] (some 2)
    (Or.inr ⟨2, { x := -8, z := -25, colIndex := 0, isBreak := false },
      rfl, by decide, by decide⟩)

/-- Claim C6: for every accepted tile click, the value appended to UserPath
equals the column index assigned to the clicked tile at board-build time. -/
theorem accepted_click_appends_colIndex (sess : Session) (s : GameState) (ti : Nat)
    (tile : TileData)
    (hcc : s.canClick = true)
    (hget : (buildTiles sess.secretPath)[ti]? = some tile)
    (hrow : ¬ mathAbs (tile.z - s.currentExpectedZ) > clickTol) :
    (clickStep sess s (some ti)).userPath = s.userPath ++ [tile.colIndex] := by
  rw [clickStep_accepted_userPath sess hcc hget hrow]
  obtain ⟨i, j, hi, hj, ht⟩ := mem_buildTiles (List.getElem?_mem hget)
  have hj2 : j < 2 := hj
  subst ht
  interval_cases j <;> rfl

/-- Witness for C6: clicking tile 1 (row 0, column 1) at page load appends
column index 1. -/
theorem accepted_click_appends_colIndex_witness :
    (clickStep wSession initState (some 1)).userPath = [1] :=
  accepted_click_appends_colIndex wSession initState 1
    { x := 8, z := 0, colIndex := 1, isBreak := false } rfl (by decide) (by decide)

/-- A click event the handler accepts: the guard is open, the raycast hits a
tile, and that tile sits on the current expected row (line 196 tolerance). -/
def acceptedClick (sess : Session) (s : GameState) (ev : Option Nat) : Prop :=
  s.canClick = true ∧
    ∃ ti tile, ev = some ti ∧ (buildTiles sess.secretPath)[ti]? = some tile ∧
      ¬ mathAbs (tile.z - s.currentExpectedZ) > clickTol

/-- Claim C7: UserPath grows by exactly one element per accepted tile click,
by zero elements on every rejected click (the state is unchanged entirely),
and its length never exceeds the row count in any reachable state of any
session. -/
theorem userPath_growth (sess : Session) (s : GameState) (ev : Option Nat)
    (evs : List (Option Nat)) :
    (acceptedClick sess s ev →
      (clickStep sess s ev).userPath.length = s.userPath.length + 1) ∧
    (¬ acceptedClick sess s ev → clickStep sess s ev = s) ∧
    (runClicks sess initState evs).userPath.length ≤ numRows := by
  refine ⟨?_, ?_, ?_⟩
  · rintro ⟨hcc, ti, tile, rfl, hget, hrow⟩
    rw [clickStep_accepted_userPath sess hcc hget hrow]
    simp
  · intro hna
    cases hcv : s.canClick
    · exact clickStep_of_locked hcv ev
    · cases ev with
      | none => exact clickStep_none sess
      | some ti =>
        cases hget : (buildTiles sess.secretPath)[ti]? with
        | none => exact clickStep_miss sess hget
        | some tile =>
          by_cases hrow : mathAbs (tile.z - s.currentExpectedZ) > clickTol
          · exact clickStep_wrongRow sess hget hrow
          · exact absurd ⟨hcv, ti, tile, rfl, hget, hrow⟩ hna
  · obtain ⟨k, -, -, -, -, hbound⟩ := stateInv_runClicks sess evs
    exact hbound

/-- Witness for C7: one accepted click grows UserPath from 0 to 1 entries,
and a short run keeps the length at most the row count. -/
theorem userPath_growth_witness :
    (clickStep wSession initState (some 1)).userPath.length =
      initState.userPath.length + 1 ∧
    (runClicks wSession initState [some 1, some 1, none]).userPath.length ≤ numRows :=
  ⟨(userPath_growth wSession initState (some 1) []).1
      ⟨rfl, 1, { x := 8, z := 0, colIndex := 1, isBreak := false }, rfl, by decide, by decide⟩,
   (userPath_growth wSession initState (some 1) [some 1, some 1, none]).2.2⟩

/-- Claim C10: after the final safe tile is clicked, the click guard is
re-enabled rather than left locked, yet every subsequent click leaves the
state unchanged, because the expected-row cursor has advanced past the
position of every tile on the board. -/
theorem completed_clicks_still_ignored (sess : Session) (hv : validSession sess) :
    (finalState sess).canClick = true ∧
    ∀ ev : Option Nat, clickStep sess (finalState sess) ev = finalState sess := by
  obtain ⟨-, -, hcc, -, hcez⟩ := finalState_fields sess hv
  refine ⟨hcc, ?_⟩
  intro ev
  cases ev with
  | none => exact clickStep_none sess
  | some ti =>
    cases hget : (buildTiles sess.secretPath)[ti]? with
    | none => exact clickStep_miss sess hget
    | some tile =>
      obtain ⟨i, j, hi, hj, ht⟩ := mem_buildTiles (List.getElem?_mem hget)
      apply clickStep_wrongRow sess hget
      have htz : tile.z = rowZ i := by rw [ht]
      rw [htz, hcez]
      have h3 : i < 3 := hi
      interval_cases i <;> decide

/-- Witness for C10 at SecretPath = [1, 0, 1]: the completed state has the
guard open and ignores a click on tile 0. -/
theorem completed_clicks_still_ignored_witness :
    (finalState wSession).canClick = true ∧
    clickStep wSession (finalState wSession) (some 0) = finalState wSession := by
  obtain ⟨h1, h2⟩ := completed_clicks_still_ignored wSession ⟨rfl, by decide⟩
  exact ⟨h1, h2 (some 0)⟩

/-- Session used in the C4 counterexample: SecretPath = [0, 0, 0]. -/
def demoSession : Session := { secretPath := [0, 0, 0], publicHash := 0 }

/-- Counterexample to claim C4 as stated: immediately after the accepted safe
move on tile 0 — that is, while the 0.5 s camera transition started on
line 202 is still in flight, since line 211 re-opens the guard synchronously
before the tween completes — the guard is already open and a click on the
next-row tile 2 is accepted and changes state. -/
theorem transition_lock_counterexample :
    (clickStep demoSession initState (some 0)).userPath = [0] ∧
    (clickStep demoSession initState (some 0)).canClick = true ∧
    clickStep demoSession (clickStep demoSession initState (some 0)) (some 2) ≠
      clickStep demoSession initState (some 0) := by decide

/-- Claim C4 as amended: the re-entrancy guard suppresses all tile input
whenever it is held (it is held within the synchronous handler body, and
permanently after a losing move), but after an accepted safe move line 211
re-opens the guard synchronously, before the visual transition completes. -/
theorem click_guard_behavior (sess : Session) (s : GameState) (ev : Option Nat)
    (ti : Nat) (tile : TileData) :
    (s.canClick = false → clickStep sess s ev = s) ∧
    (s.canClick = true → (buildTiles sess.secretPath)[ti]? = some tile →
      ¬ mathAbs (tile.z - s.currentExpectedZ) > clickTol → tile.isBreak = false →
      (clickStep sess s (some ti)).canClick = true) := by
  refine ⟨fun h => clickStep_of_locked h ev, fun hcc hget hrow hbr => ?_⟩
  by_cases hlast : mathAbs (tile.z - lastZ) < clickTol
  · rw [clickStep_safe_last sess hcc hget hrow hbr hlast]
  · rw [clickStep_safe_mid sess hcc hget hrow hbr hlast]

/-- A locked interaction state, as during a reveal or after a losing move. -/
def lockedState : GameState := { initState with canClick := false }

/-- Witness for the amended C4: a locked state ignores a click on tile 0, and
an accepted safe move on tile 0 leaves the guard open again. -/
theorem click_guard_behavior_witness :
    clickStep demoSession lockedState (some 0) = lockedState ∧
    (clickStep demoSession initState (some 0)).canClick = true := by
  refine ⟨(click_guard_behavior demoSession lockedState (some 0) 0
      { x := -8, z := 0, colIndex := 0, isBreak := false }).1 rfl, ?_⟩
  exact (click_guard_behavior demoSession initState (some 0) 0
      { x := -8, z := 0, colIndex := 0, isBreak := false }).2 rfl (by decide) (by decide) rfl

/-! ### Path generation (Path Committer), generalized board sizes

The loop of lines 104-123 draws `safeIndex = Math.floor(Math.random() * numCols)`
per row, pushes it onto `secretPath`, and marks `break = (j !== safeIndex)` on
each tile of the row.  The spec states the contract for general
`generate(rowCount, columnCount)`; the definitions below keep the source
computation, with `rand i` modelling the `Math.random()` draw of row `i`
as an exact rational in [0, 1). -/

/-- `Math.floor(Math.random() * numCols)` of line 117. -/
def randomSafeIndex (cols : Nat) (r : ℚ) : Nat := (Int.floor (r * (cols : ℚ))).toNat

/-- The `secretPath` array built by the outer loop, one entry per row. -/
def genSecretPath (rows cols : Nat) (rand : Nat → ℚ) : List Nat :=
  (List.range rows).map (fun i => randomSafeIndex cols (rand i))

/-- `tile.userData.break = (j !== safeIndex)` (line 120) for column `j` of
row `i`. -/
def tileBreakFlag (cols : Nat) (rand : Nat → ℚ) (i j : Nat) : Bool :=
  j != randomSafeIndex cols (rand i)

/-- Claim C5: path generation with rowCount rows and columnCount columns
(rowCount at least 1, columnCount at least 2) produces a SecretPath of
length exactly rowCount with every element in [0, columnCount), and the
derived per-tile safety marks exactly one tile per row as safe. -/
theorem generate_path_spec (rows cols : Nat) (rand : Nat → ℚ)
    (_hrows : 1 ≤ rows) (hcols : 2 ≤ cols)
    (hrand : ∀ i, 0 ≤ rand i ∧ rand i < 1) :
    (genSecretPath rows cols rand).length = rows ∧
    (∀ v ∈ genSecretPath rows cols rand, v < cols) ∧
    (∀ i, ∃! j, j < cols ∧ tileBreakFlag cols rand i j = false) := by
  have hsafe : ∀ i, randomSafeIndex cols (rand i) < cols := by
    intro i
    obtain ⟨h0, h1⟩ := hrand i
    have hc : (0 : ℚ) < (cols : ℚ) := by
      have : 0 < cols := by omega
      exact_mod_cast this
    have hlt : rand i * (cols : ℚ) < (cols : ℚ) := by
      calc rand i * (cols : ℚ) < 1 * (cols : ℚ) := by
            exact mul_lt_mul_of_pos_right h1 hc
        _ = (cols : ℚ) := one_mul _
    have hfl : Int.floor (rand i * (cols : ℚ)) < (cols : Int) := by
      rw [Int.floor_lt]
      exact_mod_cast hlt
    unfold randomSafeIndex
    omega
  refine ⟨by simp [genSecretPath], ?_, ?_⟩
  · intro v hv
    simp only [genSecretPath, List.mem_map, List.mem_range] at hv
    obtain ⟨i, -, rfl⟩ := hv
    exact hsafe i
  · intro i
    refine ⟨randomSafeIndex cols (rand i), ⟨hsafe i, by simp [tileBreakFlag]⟩, ?_⟩
    rintro j ⟨-, hj⟩
    simpa [tileBreakFlag] using hj

/-- Witness for C5 on the actual board size (3 rows, 2 columns) with each
random draw equal to one half: the path has length 3. -/
theorem generate_path_spec_witness :
    (genSecretPath 3 2 (fun _ => 1 / 2)).length = 3 :=
  (generate_path_spec 3 2 (fun _ => 1 / 2) (by norm_num) (by norm_num)
    (fun i => by norm_num)).1

/-! ### Digest verification (C8)

The `verify-btn` listener of lines 261-271 trims the pasted text, prompts and
sets no verdict when the trimmed text is empty (falsy), and otherwise writes
the result of a case-insensitive comparison with the held digest.  JS strings
are modelled as lists of characters.  `none` models the early-return alert
path; `some b` the verdict written to `verify-result`. -/

/-- `String.prototype.trim` of line 262: strips whitespace from both ends,
modelled with the ASCII whitespace class, which covers the digit, letter and
space characters at hand. -/
def jsTrim (s : List Char) : List Char :=
  ((s.dropWhile Char.isWhitespace).reverse.dropWhile Char.isWhitespace).reverse

/-- `String.prototype.toLowerCase` of line 267, characterwise. -/
def jsToLower (s : List Char) : List Char := s.map Char.toLower

def verifyClick (proofHash pasted : List Char) : Option Bool :=
  let proofInput := jsTrim pasted
  if proofInput = [] then none
  else some (jsToLower proofInput == jsToLower proofHash)

/-- Counterexample to claim C8 as stated: against the digest "0xab", the
pasted string " 0xab" (leading space) is not equal to the digest up to letter
case, yet verification returns valid; and the whitespace-only paste " "
returns neither valid nor invalid. -/
theorem verify_click_counterexample :
    verifyClick ['0', 'x', 'a', 'b'] [' ', '0', 'x', 'a', 'b'] = some true ∧
    jsToLower [' ', '0', 'x', 'a', 'b'] ≠ jsToLower ['0', 'x', 'a', 'b'] ∧
    verifyClick ['0', 'x', 'a', 'b'] [' '] = none := by decide

/-- Claim C8 as amended: verification returns valid exactly when the pasted
string, after trimming surrounding whitespace, equals the displayed digest up
to letter case; it returns invalid exactly when the trimmed paste is nonempty
and differs from the digest case-insensitively; and a paste that trims to the
empty string yields no verdict (only a prompt). -/
theorem verify_click_spec (digest pasted : List Char) :
    (verifyClick digest pasted = some true ↔
      jsTrim pasted ≠ [] ∧ jsToLower (jsTrim pasted) = jsToLower digest) ∧
    (verifyClick digest pasted = some false ↔
      jsTrim pasted ≠ [] ∧ jsToLower (jsTrim pasted) ≠ jsToLower digest) ∧
    (verifyClick digest pasted = none ↔ jsTrim pasted = []) := by
  unfold verifyClick
  by_cases h : jsTrim pasted = [] <;> simp [h]

/-! ### Proof pipeline error handling (C9)

The completion callback (lines 218-274) sets the victory text, then inside a
`try` block compiles the circuit (`getCircuit`), executes the witness
(`noir.execute`), generates the proof (`backend.generateProof`) and computes
the SHA-256 digest (`crypto.subtle.digest`), then displays the digest, shows
the copy buttons and installs the verify listener; the `catch` only calls
`console.error` (line 273).  Each external stage is modelled as returning a
value or throwing (`Except.error`). -/

structure ProofPipeline (E Prog Wit Pf Dg : Type) where
  compileCircuit : Except E Prog
  executeCircuit : Prog → Except E Wit
  generateProof : Wit → Except E Pf
  computeDigest : Pf → Except E Dg

/-- Running the `try` block body up to and including the digest computation:
the first stage that throws aborts the rest, as JS exceptions do. -/
def pipelineResult {E Prog Wit Pf Dg : Type} (p : ProofPipeline E Prog Wit Pf Dg) :
    Except E Dg :=
  match p.compileCircuit with
  | Except.error e => Except.error e
  | Except.ok prog =>
    match p.executeCircuit prog with
    | Except.error e => Except.error e
    | Except.ok w =>
      match p.generateProof w with
      | Except.error e => Except.error e
      | Except.ok pf => p.computeDigest pf

/-- User-visible outcome of the completion callback. -/
structure CompletionUI (E Dg : Type) where
  victoryShown : Bool
  digestShown : Option Dg
  copyButtonsShown : Bool
  verifyEnabled : Bool
  errorLogged : Option E
deriving DecidableEq

/-- UI state right before the `try` block: the victory text is already shown
(line 223), none of the success controls are active, nothing logged. -/
def uiBeforeProof {E Dg : Type} : CompletionUI E Dg :=
  { victoryShown := true
    digestShown := none
    copyButtonsShown := false
    verifyEnabled := false
    errorLogged := none }

/-- The whole completion callback: on success the digest is displayed, the
copy buttons shown and the verify listener installed (lines 242-271); on a
throw the `catch` only logs the error. -/
def runCompletion {E Prog Wit Pf Dg : Type} (p : ProofPipeline E Prog Wit Pf Dg) :
    CompletionUI E Dg :=
  match pipelineResult p with
  | Except.ok d =>
      { (uiBeforeProof : CompletionUI E Dg) with
          digestShown := some d
          copyButtonsShown := true
          verifyEnabled := true }
  | Except.error e => { (uiBeforeProof : CompletionUI E Dg) with errorLogged := some e }

/-- Claim C9: if any step of the proof pipeline (circuit compilation, witness
execution, proof generation, or digest computation) throws, the error is
caught at the top level and logged, no error is surfaced to the user (the
resulting UI differs from the pre-try UI only in the log), and none of the
success UI actions — digest display, copy buttons, verify control — are
activated. -/
theorem pipeline_error_swallowed {E Prog Wit Pf Dg : Type}
    (p : ProofPipeline E Prog Wit Pf Dg) (e : E)
    (h : p.compileCircuit = Except.error e ∨
         (∃ prog, p.compileCircuit = Except.ok prog ∧
            p.executeCircuit prog = Except.error e) ∨
         (∃ prog w, p.compileCircuit = Except.ok prog ∧
            p.executeCircuit prog = Except.ok w ∧
            p.generateProof w = Except.error e) ∨
         (∃ prog w pf, p.compileCircuit = Except.ok prog ∧
            p.executeCircuit prog = Except.ok w ∧
            p.generateProof w = Except.ok pf ∧
            p.computeDigest pf = Except.error e)) :
    runCompletion p = { (uiBeforeProof : CompletionUI E Dg) with errorLogged := some e } ∧
    (runCompletion p).digestShown = none ∧
    (runCompletion p).copyButtonsShown = false ∧
    (runCompletion p).verifyEnabled = false ∧
    (runCompletion p).errorLogged = some e := by
  have hres : pipelineResult p = Except.error e := by
    rcases h with h1 | ⟨prog, h1, h2⟩ | ⟨prog, w, h1, h2, h3⟩ | ⟨prog, w, pf, h1, h2, h3, h4⟩
    · simp [pipelineResult, h1]
    · simp [pipelineResult, h1, h2]
    · simp [pipelineResult, h1, h2, h3]
    · simp [pipelineResult, h1, h2, h3, h4]
  have hrun : runCompletion p =
      { (uiBeforeProof : CompletionUI E Dg) with errorLogged := some e } := by
    simp [runCompletion, hres]
  refine ⟨hrun, ?_, ?_, ?_, ?_⟩ <;> simp [hrun, uiBeforeProof]

/-- A pipeline whose circuit compilation throws. -/
def failingPipeline : ProofPipeline String Unit Unit Unit Unit :=
  { compileCircuit := Except.error "compile failed"
    executeCircuit := fun _ => Except.ok ()
    generateProof := fun _ => Except.ok ()
    computeDigest := fun _ => Except.ok () }

/-- Witness for C9: a compile failure is logged and leaves every success
control inactive. -/
theorem pipeline_error_swallowed_witness :
    runCompletion failingPipeline =
      { (uiBeforeProof : CompletionUI String Unit) with errorLogged := some "compile failed" } ∧
    (runCompletion failingPipeline).digestShown = none ∧
    (runCompletion failingPipeline).copyButtonsShown = false ∧
    (runCompletion failingPipeline).verifyEnabled = false ∧
    (runCompletion failingPipeline).errorLogged = some "compile failed" :=
  pipeline_error_swallowed failingPipeline "compile failed" (Or.inl rfl)

end Zktest
